import Mathlib

/-!
Shallow embedding of the geoarrow-rs core verified here: the arrow2-style
buffer/offset/bitmap data model, the `MultiPointArray` operations
(construction, slicing, owned slicing, index-width conversion, iteration,
spatial-index loading), the WKB `MultiPolygon` reader, the `Polygon` scalar
view, and the algorithm-layer length/validity contract.

Coordinate scalars are abstracted by a type `α` (the Rust code stores `f64`;
no claim verified here depends on floating-point arithmetic, only on how
coordinate values are moved, shared and copied).  A Rust panic is modelled
by an `Option` result: `none` means the operation panics.
-/

/-- arrow2 `Buffer<T>`: a shared backing allocation (`data`) viewed through a
window (`offset`, `length`).  Slicing moves the window and never copies
`data`; `Buffer.ofList` is a freshly allocated, unsliced buffer. -/
structure Buffer (α : Type) where
  data : List α
  offset : Nat
  length : Nat
deriving DecidableEq

/-- The logical values seen through the buffer's window. -/
def Buffer.values (b : Buffer α) : List α :=
  (b.data.drop b.offset).take b.length

/-- A fresh buffer owning exactly `l`. -/
def Buffer.ofList (l : List α) : Buffer α :=
  ⟨l, 0, l.length⟩

/-- arrow2 `Buffer::is_sliced`: whether the window hides part of `data`. -/
def Buffer.isSliced (b : Buffer α) : Bool :=
  !(b.offset == 0 && b.length == b.data.length)

/-- Move the window; shares `data` (arrow2 `slice_unchecked`). -/
def Buffer.sliceUnchecked (b : Buffer α) (off len : Nat) : Buffer α :=
  ⟨b.data, b.offset + off, len⟩

/-- The window lies inside the allocation. -/
abbrev Buffer.WF (b : Buffer α) : Prop :=
  b.offset + b.length ≤ b.data.length

/-- arrow2 validity `Bitmap`: one bool per slot, bit unset means null. -/
structure Bitmap where
  buffer : Buffer Bool
deriving DecidableEq

def Bitmap.len (b : Bitmap) : Nat := b.buffer.length

def Bitmap.getBit (b : Bitmap) (i : Nat) : Bool :=
  (b.buffer.values[i]?).getD false

def Bitmap.slice (b : Bitmap) (off len : Nat) : Bitmap :=
  ⟨b.buffer.sliceUnchecked off len⟩

def Bitmap.ofList (l : List Bool) : Bitmap :=
  ⟨Buffer.ofList l⟩

/-- arrow2 `OffsetsBuffer<O>`: a buffer of monotone non-negative offsets.
The Rust type is generic over the machine width `O ∈ {i32, i64}`; values are
modelled as unbounded `Int` and a width is a range predicate (`fitsI32`). -/
structure OffsetsBuffer where
  buffer : Buffer Int
deriving DecidableEq

def OffsetsBuffer.values (o : OffsetsBuffer) : List Int := o.buffer.values

/-- arrow2 `len_proxy()`: number of logical elements, one less than the
number of stored offsets. -/
def OffsetsBuffer.lenProxy (o : OffsetsBuffer) : Nat := o.buffer.length - 1

def OffsetsBuffer.get (o : OffsetsBuffer) (i : Nat) : Int :=
  (o.values[i]?).getD 0

/-- The offset at `i`, converted to `usize` as the Rust code does. -/
def OffsetsBuffer.getNat (o : OffsetsBuffer) (i : Nat) : Nat := (o.get i).toNat

/-- arrow2 `last()`: the terminal offset. -/
def OffsetsBuffer.last (o : OffsetsBuffer) : Int :=
  o.get (o.buffer.length - 1)

/-- arrow2 `start_end(i)`: the coordinate range of element `i`, as usizes. -/
def OffsetsBuffer.startEnd (o : OffsetsBuffer) (i : Nat) : Nat × Nat :=
  (o.getNat i, o.getNat (i + 1))

/-- arrow2 `OffsetsBuffer::slice_unchecked`: re-window the shared buffer. -/
def OffsetsBuffer.sliceUnchecked (o : OffsetsBuffer) (off len : Nat) : OffsetsBuffer :=
  ⟨o.buffer.sliceUnchecked off len⟩

def OffsetsBuffer.ofList (l : List Int) : OffsetsBuffer :=
  ⟨Buffer.ofList l⟩

/-- Offsets invariant: in-window buffer, at least one offset, monotone
non-decreasing, non-negative. -/
abbrev OffsetsBuffer.WF (o : OffsetsBuffer) : Prop :=
  o.buffer.WF ∧ 1 ≤ o.buffer.length ∧ o.values.Sorted (· ≤ ·) ∧ ∀ v ∈ o.values, 0 ≤ v

/-- Structured error type of the crate (`GeoArrowError`); `overflow` stands
for the wrapped arrow2 overflow error raised by offset narrowing. -/
inductive GeoArrowError where
  | general (msg : String)
  | overflow
deriving DecidableEq

/-- Rust `i32::MAX`, the bound of the narrow offset width. -/
def I32_MAX : Int := 2 ^ 31 - 1

/-- The offsets all fit the narrow (i32) width. -/
abbrev OffsetsBuffer.fitsI32 (o : OffsetsBuffer) : Prop :=
  ∀ v ∈ o.values, v ≤ I32_MAX

/-- arrow2 `From<&OffsetsBuffer<i32>> for OffsetsBuffer<i64>`: a fresh buffer
holding the same offset values at the wide width. -/
def OffsetsBuffer.widen (o : OffsetsBuffer) : OffsetsBuffer :=
  OffsetsBuffer.ofList o.values

/-- arrow2 `TryFrom<&OffsetsBuffer<i64>> for OffsetsBuffer<i32>`: a fresh
buffer with the same values, failing with an overflow error when a value
exceeds the narrow range. -/
def OffsetsBuffer.tryNarrow (o : OffsetsBuffer) : Except GeoArrowError OffsetsBuffer :=
  if o.values.all fun v => decide (v ≤ I32_MAX) then
    Except.ok (OffsetsBuffer.ofList o.values)
  else
    Except.error GeoArrowError.overflow

/-- Modelled from the spec: the `CoordBuffer` trait and its two physical
layouts (interleaved x,y pairs in one buffer, or two index-aligned per-axis
buffers); the trait lives outside the provided sources, spec section 4.1. -/
inductive CoordBuffer (α : Type) where
  | interleaved (buf : Buffer α)
  | separated (x y : Buffer α)
deriving DecidableEq

/-- Logical number of coordinates. -/
def CoordBuffer.len : CoordBuffer α → Nat
  | .interleaved b => b.length / 2
  | .separated x _ => x.length

/-- Positional access to the pair at `i`; out-of-range access is a
programming error in the source (it panics), the default is never read
under the well-formedness hypotheses used below. -/
def CoordBuffer.get [Inhabited α] : CoordBuffer α → Nat → α × α
  | .interleaved b, i => ((b.values[2 * i]?).getD default, (b.values[2 * i + 1]?).getD default)
  | .separated x y, i => ((x.values[i]?).getD default, (y.values[i]?).getD default)

/-- Modelled from the spec: `owned_slice` of a coordinate buffer copies only
the requested sub-range into fresh storage (spec section 4.1). -/
def CoordBuffer.ownedSlice : CoordBuffer α → Nat → Nat → CoordBuffer α
  | .interleaved b, off, len =>
      .interleaved (Buffer.ofList ((b.values.drop (2 * off)).take (2 * len)))
  | .separated x y, off, len =>
      .separated (Buffer.ofList ((x.values.drop off).take len))
        (Buffer.ofList ((y.values.drop off).take len))

abbrev CoordBuffer.WF : CoordBuffer α → Prop
  | .interleaved b => b.WF ∧ b.length % 2 = 0
  | .separated x y => x.WF ∧ y.WF ∧ x.length = y.length

def CoordBuffer.isSliced : CoordBuffer α → Bool
  | .interleaved b => b.isSliced
  | .separated x y => x.isSliced || y.isSliced

/-- The `MultiPoint` scalar view: borrowed coordinate and offset buffers
plus one geometry index (mirrors `scalar/polygon/scalar.rs`, whose
`MultiPoint` sibling has one offset buffer fewer). -/
structure MultiPoint (α : Type) where
  coords : CoordBuffer α
  geomOffsets : OffsetsBuffer
  geomIndex : Nat
deriving DecidableEq

/-- The coordinate range of this scalar. -/
def MultiPoint.startEnd (p : MultiPoint α) : Nat × Nat :=
  p.geomOffsets.startEnd p.geomIndex

/-- Materialize the scalar view into its sequence of points (the
`value_as_geo` conversion boundary). -/
def MultiPoint.points [Inhabited α] (p : MultiPoint α) : List (α × α) :=
  (List.range (p.startEnd.2 - p.startEnd.1)).map fun k => p.coords.get (p.startEnd.1 + k)

/-- `MultiPointArray` from `array/multipoint/array.rs`: coordinates, one
geometry offset buffer, optional validity. -/
structure MultiPointArray (α : Type) where
  coords : CoordBuffer α
  geomOffsets : OffsetsBuffer
  validity : Option Bitmap
deriving DecidableEq

/-- The `check` validation shared by `new` and `try_new`
(`array/multipoint/array.rs` lines 31-49). -/
def check (coords : CoordBuffer α) (validityLen : Option Nat)
    (geomOffsets : OffsetsBuffer) : Except GeoArrowError Unit :=
  if (validityLen.map fun len => len != geomOffsets.lenProxy).getD false then
    Except.error (GeoArrowError.general "validity mask length must match the number of values")
  else if geomOffsets.last.toNat != coords.len then
    Except.error (GeoArrowError.general "largest geometry offset must match coords length")
  else
    Except.ok ()

/-- `MultiPointArray::try_new`: runs `check`, propagating its error. -/
def MultiPointArray.tryNew (coords : CoordBuffer α) (geomOffsets : OffsetsBuffer)
    (validity : Option Bitmap) : Except GeoArrowError (MultiPointArray α) :=
  match check coords (validity.map Bitmap.len) geomOffsets with
  | Except.error e => Except.error e
  | Except.ok _ => Except.ok ⟨coords, geomOffsets, validity⟩

/-- `MultiPointArray::new`: runs `check` and unwraps; the panic on a failed
check is modelled as `none`. -/
def MultiPointArray.new? (coords : CoordBuffer α) (geomOffsets : OffsetsBuffer)
    (validity : Option Bitmap) : Option (MultiPointArray α) :=
  match check coords (validity.map Bitmap.len) geomOffsets with
  | Except.error _ => none
  | Except.ok _ => some ⟨coords, geomOffsets, validity⟩

/-- `MultiPointArray::len`: `geom_offsets.len_proxy()`. -/
def MultiPointArray.len (A : MultiPointArray α) : Nat := A.geomOffsets.lenProxy

/-- Modelled from the spec: the `GeometryArrayTrait::is_null` default (the
trait body is outside the provided sources): a slot is null when the
validity bit is unset, and absent validity means all valid. -/
def MultiPointArray.isNull (A : MultiPointArray α) (i : Nat) : Bool :=
  match A.validity with
  | none => false
  | some b => !(b.getBit i)

/-- `GeometryArrayTrait::value`: `MultiPoint::new_borrowed(coords, geom_offsets, i)`. -/
def MultiPointArray.value (A : MultiPointArray α) (i : Nat) : MultiPoint α :=
  ⟨A.coords, A.geomOffsets, i⟩

/-- Modelled from the spec: `get(i)` returns none if the slot is null,
otherwise the scalar view (spec section 4.3). -/
def MultiPointArray.get (A : MultiPointArray α) (i : Nat) : Option (MultiPoint α) :=
  if A.isNull i then none else some (A.value i)

/-- Array well-formedness: valid offsets, valid coords, terminal offset
equals the coordinate count, and validity (when present) in-window with the
logical length. -/
abbrev MultiPointArray.WF (A : MultiPointArray α) : Prop :=
  A.geomOffsets.WF ∧ A.coords.WF ∧ A.geomOffsets.last.toNat = A.coords.len ∧
    ∀ b ∈ A.validity, b.len = A.len ∧ b.buffer.WF

/-- Modelled from the spec: the `slice_validity_unchecked` helper from
`crate::util` (outside the provided sources) re-windows the bitmap. -/
def sliceValidityUnchecked (validity : Option Bitmap) (off len : Nat) : Option Bitmap :=
  validity.map fun b => b.slice off len

/-- `MultiPointArray::slice` (in-place in Rust; functional here): asserts
the bounds — `none` models the panic — then re-windows validity and takes
`length + 1` offsets starting at `offset`. -/
def MultiPointArray.slice? (A : MultiPointArray α) (offset length : Nat) :
    Option (MultiPointArray α) :=
  if offset + length ≤ A.len then
    some { coords := A.coords
           geomOffsets := A.geomOffsets.sliceUnchecked offset (length + 1)
           validity := sliceValidityUnchecked A.validity offset length }
  else
    none

/-- Modelled from the spec: the `owned_slice_offsets` helper from
`crate::util` builds a freshly compacted offset buffer re-based to start
at zero (spec section 4.3). -/
def ownedSliceOffsets (o : OffsetsBuffer) (offset length : Nat) : OffsetsBuffer :=
  OffsetsBuffer.ofList
    ((List.range (length + 1)).map fun i => o.get (offset + i) - o.get offset)

/-- Modelled from the spec: the `owned_slice_validity` helper from
`crate::util` copies the touched validity sub-range into fresh storage. -/
def ownedSliceValidity (validity : Option Bitmap) (off len : Nat) : Option Bitmap :=
  validity.map fun b => Bitmap.ofList ((b.buffer.values.drop off).take len)

/-- `MultiPointArray::owned_slice`: asserts `offset + length <= len` and
`length >= 1` (panics modelled as `none`), finds the touched coordinate
range through `start_end`, copies each buffer, and rebuilds through `new`. -/
def MultiPointArray.ownedSlice? (A : MultiPointArray α) (offset length : Nat) :
    Option (MultiPointArray α) :=
  if offset + length ≤ A.len ∧ 1 ≤ length then
    let startCoordIdx := (A.geomOffsets.startEnd offset).1
    let endCoordIdx := (A.geomOffsets.startEnd (offset + length - 1)).2
    MultiPointArray.new? (A.coords.ownedSlice startCoordIdx (endCoordIdx - startCoordIdx))
      (ownedSliceOffsets A.geomOffsets offset length)
      (ownedSliceValidity A.validity offset length)
  else
    none

/-- `From<MultiPointArray<i32>> for MultiPointArray<i64>`: widen the offsets
and rebuild through `new` (whose panic is modelled as `none`), passing
coordinates and validity through untouched. -/
def multiPointWiden? (A : MultiPointArray α) : Option (MultiPointArray α) :=
  MultiPointArray.new? A.coords A.geomOffsets.widen A.validity

/-- `TryFrom<MultiPointArray<i64>> for MultiPointArray<i32>`: narrow the
offsets, propagating the overflow error, and rebuild through `new`; the
outer `Option` models the panic of `new`. -/
def multiPointTryNarrow? (A : MultiPointArray α) :
    Option (Except GeoArrowError (MultiPointArray α)) :=
  match A.geomOffsets.tryNarrow with
  | Except.error e => some (Except.error e)
  | Except.ok g => (MultiPointArray.new? A.coords g A.validity).map Except.ok

/-- WKB byte-order marker (`io/native/wkb/geometry.rs`). -/
inductive Endianness where
  | bigEndian
  | littleEndian
deriving DecidableEq

/-- byteorder `read_u32` at `pos`: combines four bytes per the declared
endianness; `none` when the buffer holds fewer than four bytes there (the
Rust read returns `Err`, which the callers below unwrap). -/
def readU32 (buf : List Nat) (pos : Nat) (bo : Endianness) : Option Nat :=
  match buf[pos]?, buf[pos + 1]?, buf[pos + 2]?, buf[pos + 3]? with
  | some b0, some b1, some b2, some b3 =>
    some (match bo with
      | Endianness.littleEndian => b0 + b1 * 256 + b2 * 65536 + b3 * 16777216
      | Endianness.bigEndian => b3 + b2 * 256 + b1 * 65536 + b0 * 16777216)
  | _, _, _, _ => none

/-- A WKB polygon view: the byte offset where it starts in the shared
buffer and the number of bytes it consumes. -/
structure WKBPolygon where
  offset : Nat
  size : Nat
deriving DecidableEq

/-- Modelled from the spec: the ring walk inside `WKBPolygon::new` (the
polygon reader is outside the provided sources): each ring contributes a
4-byte point count plus 16 bytes per point, and the reader accumulates
sizes so each ring header is read at its computed offset (spec section
4.4); `none` models the unwrap panic on a truncated ring header. -/
def wkbRingsSize (buf : List Nat) (bo : Endianness) (base : Nat) :
    Nat → Nat → Option Nat
  | 0, acc => some acc
  | n + 1, acc =>
    match readU32 buf (base + acc) bo with
    | none => none
    | some c => wkbRingsSize buf bo base n (acc + 4 + 16 * c)

/-- Modelled from the spec: `WKBPolygon::new(buf, byte_order, offset)`
(outside the provided sources) reads the 4-byte ring count after its own
5-byte header and walks the ring sizes; its consumed size is the 9 header
bytes plus the rings (spec sections 4.4 and 6). -/
def WKBPolygon.new? (buf : List Nat) (bo : Endianness) (offset : Nat) :
    Option WKBPolygon :=
  match readU32 buf (offset + 5) bo with
  | none => none
  | some numRings =>
    match wkbRingsSize buf bo (offset + 9) numRings 0 with
    | none => none
    | some ringsSize => some ⟨offset, 9 + ringsSize⟩

/-- `WKBMultiPolygon` (`io/native/wkb/multipolygon.rs`): one eagerly
constructed `WKBPolygon` view per sub-polygon. -/
structure WKBMultiPolygon where
  wkbPolygons : List WKBPolygon
deriving DecidableEq

/-- The sub-polygon construction loop of `WKBMultiPolygon::new`: each
polygon view is built at the accumulated offset, which then advances by the
polygon's consumed size; `none` models a panic inside `WKBPolygon::new`. -/
def wkbPolygonsLoop (buf : List Nat) (bo : Endianness) :
    Nat → Nat → Option (List WKBPolygon)
  | 0, _ => some []
  | n + 1, offset =>
    match WKBPolygon.new? buf bo offset with
    | none => none
    | some p => (wkbPolygonsLoop buf bo n (offset + p.size)).map fun ps => p :: ps

/-- `WKBMultiPolygon::new(buf, byte_order)`: reads the 4-byte polygon count
at position `HEADER_BYTES = 5` (unwrap panic modelled as `none`), then runs
the construction loop starting at byte offset 1 + 4 + 4 = 9. -/
def WKBMultiPolygon.new? (buf : List Nat) (bo : Endianness) :
    Option WKBMultiPolygon :=
  match readU32 buf 5 bo with
  | none => none
  | some numPolygons => (wkbPolygonsLoop buf bo numPolygons 9).map WKBMultiPolygon.mk

/-- `MultiPolygonTrait::num_polygons`. -/
def WKBMultiPolygon.numPolygons (w : WKBMultiPolygon) : Nat := w.wkbPolygons.length

/-- `MultiPolygonTrait::polygon(i)`: returns `none` only when
`i > num_polygons()`, otherwise indexes `wkb_polygons[i]`; the outer
`Option` models the index panic (which fires exactly at
`i = num_polygons()`). -/
def WKBMultiPolygon.polygon? (w : WKBMultiPolygon) (i : Nat) :
    Option (Option WKBPolygon) :=
  if i > w.numPolygons then some none
  else
    match w.wkbPolygons[i]? with
    | some p => some (some p)
    | none => none

/-- The `LineString` scalar view (its constructor `LineString::new` only
stores the borrowed buffers and the geometry index, as `Polygon::new` in
`scalar/polygon/scalar.rs` does). -/
structure LineString (α : Type) where
  coords : CoordBuffer α
  geomOffsets : OffsetsBuffer
  geomIndex : Nat
deriving DecidableEq

/-- The `Polygon` scalar view (`scalar/polygon/scalar.rs`). -/
structure Polygon (α : Type) where
  coords : CoordBuffer α
  geomOffsets : OffsetsBuffer
  ringOffsets : OffsetsBuffer
  geomIndex : Nat
deriving DecidableEq

/-- `PolygonTrait::exterior`: none when the ring range is empty, otherwise
the ring at index `start`. -/
def Polygon.exterior (p : Polygon α) : Option (LineString α) :=
  let se := p.geomOffsets.startEnd p.geomIndex
  if se.1 == se.2 then none
  else some ⟨p.coords, p.ringOffsets, se.1⟩

/-- `PolygonTrait::num_interiors`: `end - start - 1`. -/
def Polygon.numInteriors (p : Polygon α) : Nat :=
  let se := p.geomOffsets.startEnd p.geomIndex
  se.2 - se.1 - 1

/-- `PolygonTrait::interior(i)`: none when `i > end - start - 1`, otherwise
the ring at index `start + 1 + i`. -/
def Polygon.interior (p : Polygon α) (i : Nat) : Option (LineString α) :=
  let se := p.geomOffsets.startEnd p.geomIndex
  if i > se.2 - se.1 - 1 then none
  else some ⟨p.coords, p.ringOffsets, se.1 + 1 + i⟩

/-- rstar `CachedEnvelope`: wraps a scalar caching its bounding envelope;
the envelope itself is f64 arithmetic internal to the external rstar crate
and plays no role in the properties proved here. -/
structure CachedEnvelope (σ : Type) where
  geom : σ
deriving DecidableEq

def CachedEnvelope.new (g : σ) : CachedEnvelope σ := ⟨g⟩

/-- rstar `RTree`, modelled by its bulk-loaded contents: the external
crate's bulk load builds a balanced tree containing exactly the given
elements. -/
structure RTree (σ : Type) where
  elems : List σ
deriving DecidableEq

def RTree.bulkLoad (l : List σ) : RTree σ := ⟨l⟩

def RTree.size (t : RTree σ) : Nat := t.elems.length

/-- Modelled from the spec: `GeometryArrayTrait::iter` (outside the provided
sources) yields, in index order, none for null slots and the scalar view
otherwise (spec section 4.3). -/
def MultiPointArray.iter (A : MultiPointArray α) : List (Option (MultiPoint α)) :=
  (List.range A.len).map fun i => A.get i

/-- `MultiPointArray::rstar_tree`:
`RTree::bulk_load(self.iter().flatten().map(CachedEnvelope::new).collect())`. -/
def MultiPointArray.rstarTree (A : MultiPointArray α) :
    RTree (CachedEnvelope (MultiPoint α)) :=
  RTree.bulkLoad ((A.iter.filterMap id).map CachedEnvelope.new)

/-- `MultiPointArray::iter_geo_values`: materialized geometry per index,
not looking at validity. -/
def MultiPointArray.iterGeoValues [Inhabited α] (A : MultiPointArray α) :
    List (List (α × α)) :=
  (List.range A.len).map fun i => (A.value i).points

/-- `MultiPointArray::iter_geo`: `ZipValidity` over `iter_geo_values`,
yielding none exactly at null slots. -/
def MultiPointArray.iterGeo [Inhabited α] (A : MultiPointArray α) :
    List (Option (List (α × α))) :=
  (List.range A.len).map fun i =>
    if A.isNull i then none else some ((A.value i).points)

/-- Offsets accumulated from per-geometry lengths (the builder's running
sum, spec section 4.2). -/
def offsetsFromLengths (lens : List Nat) : OffsetsBuffer :=
  OffsetsBuffer.ofList ((List.range (lens.length + 1)).map fun i => ((lens.take i).sum : Int))

/-- Modelled from the spec: the `From<Vec<Option<geo geometry>>>`
construction through the mutable builder (outside the provided sources):
the result has one slot per input element, a validity bit set exactly where
the element is present, coordinates concatenated in order, and offsets
accumulated from the per-geometry lengths (spec sections 4.3 and 4.6). -/
def arrayFromOptionGeoms (geoms : List (Option (List (α × α)))) : MultiPointArray α :=
  { coords := CoordBuffer.interleaved
      (Buffer.ofList ((geoms.map fun g => (g.getD []).flatMap fun c => [c.1, c.2]).flatten))
    geomOffsets := offsetsFromLengths (geoms.map fun g => (g.getD []).length)
    validity := some (Bitmap.ofList (geoms.map Option.isSome)) }

/-- `ChaikinSmoothing::chaikin_smoothing` for the offset-buffer arrays
(`algorithm/geo/chaikin_smoothing.rs`): map the external geo-crate
smoothing (abstracted as `f`, a pure per-geometry transformation) over
`iter_geo` and rebuild through the standard conversion.  `LineStringArray`
shares the `MultiPointArray` layout (`array/multipoint/array.rs` line
375), so the array shape is the same structure. -/
def chaikinSmoothing [Inhabited α] (f : List (α × α) → List (α × α))
    (A : MultiPointArray α) : MultiPointArray α :=
  arrayFromOptionGeoms (A.iterGeo.map (Option.map f))

/-- `HasDimensions::is_empty` (`algorithm/geo/dimensions.rs`): push
`maybe_g.map(is_empty)` per `iter_geo` item into a boolean array, here a
list of optional bools (none at null slots); geo-crate emptiness of a
multipoint is having no points. -/
def isEmptyArray [Inhabited α] (A : MultiPointArray α) : List (Option Bool) :=
  A.iterGeo.map (Option.map fun g => g.isEmpty)

/-- Concrete example data used by witnesses and counterexamples: a
MultiPoint array of two geometries over three coordinates, the second slot
null. -/
def exCoords : CoordBuffer Int :=
  CoordBuffer.interleaved (Buffer.ofList [0, 0, 10, 10, 20, 25])

def exOffsets : OffsetsBuffer := OffsetsBuffer.ofList [0, 1, 3]

def exValidity : Bitmap := Bitmap.ofList [true, false]

def exArray : MultiPointArray Int := ⟨exCoords, exOffsets, some exValidity⟩

/-- A polygon scalar over the example coordinates: ring range [0, 2), so
one exterior and one interior ring. -/
def exPolygon : Polygon Int :=
  ⟨exCoords, OffsetsBuffer.ofList [0, 2], OffsetsBuffer.ofList [0, 2, 3], 0⟩

/-- A well-formed WKB MultiPolygon encoding with zero sub-polygons:
byte-order 1 (little endian), type tag 6, count 0. -/
def exWkbZeroMultiPolygon : List Nat := [1, 6, 0, 0, 0, 0, 0, 0, 0]

/-- A well-formed little-endian WKB MultiPolygon with one sub-polygon of
one ring of one point: 9 header bytes, then a 9-byte polygon header, a
4-byte ring count and 16 coordinate bytes. -/
def exWkbOneMultiPolygon : List Nat :=
  [1, 6, 0, 0, 0, 1, 0, 0, 0,
   1, 3, 0, 0, 0, 1, 0, 0, 0,
   1, 0, 0, 0,
   0, 0, 0, 0, 0, 0, 0, 0, 0, 0, 0, 0, 0, 0, 0, 0]

/-!  Theorems.  General lemmas about the buffer model come first, then the
claims, each stated over the definitions above. -/

theorem Buffer.getElem?_values (b : Buffer α) (i : Nat) :
    b.values[i]? = if i < b.length then b.data[b.offset + i]? else none := by
  unfold Buffer.values
  rw [List.getElem?_take, List.getElem?_drop]

theorem Buffer.length_values (b : Buffer α) (h : b.WF) : b.values.length = b.length := by
  unfold Buffer.values
  rw [List.length_take, List.length_drop]
  unfold Buffer.WF at h
  omega

theorem Buffer.values_ofList (l : List α) : (Buffer.ofList l).values = l := by
  simp [Buffer.values, Buffer.ofList]

theorem OffsetsBuffer.get_def (o : OffsetsBuffer) (i : Nat) :
    o.get i = if i < o.buffer.length then (o.buffer.data[o.buffer.offset + i]?).getD 0 else 0 := by
  unfold OffsetsBuffer.get OffsetsBuffer.values
  rw [Buffer.getElem?_values]
  split <;> simp

theorem OffsetsBuffer.valuesOfList (l : List Int) : (OffsetsBuffer.ofList l).values = l :=
  Buffer.values_ofList l

theorem OffsetsBuffer.get_ofList (l : List Int) (i : Nat) :
    (OffsetsBuffer.ofList l).get i = (l[i]?).getD 0 := by
  unfold OffsetsBuffer.get
  rw [OffsetsBuffer.valuesOfList]

theorem OffsetsBuffer.get_eq_getElem (o : OffsetsBuffer) {i : Nat}
    (hi : i < o.values.length) : o.get i = o.values.get ⟨i, hi⟩ := by
  unfold OffsetsBuffer.get
  rw [List.getElem?_eq_getElem hi]
  rfl

theorem OffsetsBuffer.get_mono (o : OffsetsBuffer) (h : o.WF) {i j : Nat}
    (hij : i ≤ j) (hj : j < o.buffer.length) : o.get i ≤ o.get j := by
  have hlen : o.values.length = o.buffer.length := Buffer.length_values _ h.1
  have hj2 : j < o.values.length := by omega
  have hi2 : i < o.values.length := by omega
  rw [OffsetsBuffer.get_eq_getElem o hi2, OffsetsBuffer.get_eq_getElem o hj2]
  rcases Nat.lt_or_ge i j with hlt | hge
  · exact h.2.2.1.rel_get_of_lt hlt
  · have : i = j := by omega
    subst this
    exact le_refl _

theorem OffsetsBuffer.get_nonneg (o : OffsetsBuffer) (h : o.WF) (i : Nat) : 0 ≤ o.get i := by
  unfold OffsetsBuffer.get
  rcases Nat.lt_or_ge i o.values.length with hi | hi
  · rw [List.getElem?_eq_getElem hi]
    exact h.2.2.2 _ (List.getElem_mem hi)
  · rw [List.getElem?_eq_none hi]
    simp

theorem OffsetsBuffer.getNat_mono (o : OffsetsBuffer) (h : o.WF) {i j : Nat}
    (hij : i ≤ j) (hj : j < o.buffer.length) : o.getNat i ≤ o.getNat j := by
  unfold OffsetsBuffer.getNat
  exact Int.toNat_le_toNat (o.get_mono h hij hj)

theorem OffsetsBuffer.getNat_eq_get (o : OffsetsBuffer) (h : o.WF) (i : Nat) :
    (o.getNat i : Int) = o.get i := by
  unfold OffsetsBuffer.getNat
  exact Int.toNat_of_nonneg (o.get_nonneg h i)

/-- C4: `MultiPointArray::new` and `try_new` run the same validation — the
validity bitmap's length (when present) must equal the number of geometries,
and the last geometry offset must equal the coordinate buffer's length; on a
violation `try_new` returns a structured error while `new` panics, and when
validation passes both produce the array holding exactly the given parts. -/
theorem newAndTryNewRunSameValidation (c : CoordBuffer α) (g : OffsetsBuffer)
    (v : Option Bitmap) :
    MultiPointArray.new? c g v = (MultiPointArray.tryNew c g v).toOption
    ∧ (MultiPointArray.tryNew c g v = Except.ok ⟨c, g, v⟩ ↔
        (∀ b ∈ v, b.len = g.lenProxy) ∧ g.last.toNat = c.len)
    ∧ (¬ ((∀ b ∈ v, b.len = g.lenProxy) ∧ g.last.toNat = c.len) ↔
        ∃ msg, MultiPointArray.tryNew c g v = Except.error (GeoArrowError.general msg)) := by
  refine ⟨?_, ?_, ?_⟩
  · unfold MultiPointArray.new? MultiPointArray.tryNew
    cases check c (v.map Bitmap.len) g <;> rfl
  · unfold MultiPointArray.tryNew check
    cases v with
    | none =>
      by_cases h2 : g.last.toNat = c.len <;> simp [h2]
    | some b =>
      by_cases h1 : b.len = g.lenProxy <;> by_cases h2 : g.last.toNat = c.len <;>
        simp [h1, h2]
  · unfold MultiPointArray.tryNew check
    cases v with
    | none =>
      by_cases h2 : g.last.toNat = c.len <;> simp [h2]
    | some b =>
      by_cases h1 : b.len = g.lenProxy <;> by_cases h2 : g.last.toNat = c.len <;>
        simp [h1, h2]

/-- C10: for a polygon scalar with non-empty ring range [start, end):
`num_interiors` is `end - start - 1`; `interior i` is some for every
`i ≤ num_interiors` — at `i = num_interiors` the returned view addresses
ring index `end` — and none exactly when `i > num_interiors`; `exterior` is
none exactly when `start = end`. -/
theorem polygonInteriorOnePastEnd (p : Polygon α)
    (h : (p.geomOffsets.startEnd p.geomIndex).1 < (p.geomOffsets.startEnd p.geomIndex).2) :
    p.numInteriors = (p.geomOffsets.startEnd p.geomIndex).2 -
        (p.geomOffsets.startEnd p.geomIndex).1 - 1
    ∧ (∀ i, i ≤ p.numInteriors →
        p.interior i = some ⟨p.coords, p.ringOffsets,
          (p.geomOffsets.startEnd p.geomIndex).1 + 1 + i⟩)
    ∧ p.interior p.numInteriors = some ⟨p.coords, p.ringOffsets,
        (p.geomOffsets.startEnd p.geomIndex).2⟩
    ∧ (∀ i, p.interior i = none ↔ p.numInteriors < i)
    ∧ (p.exterior = none ↔ (p.geomOffsets.startEnd p.geomIndex).1 =
        (p.geomOffsets.startEnd p.geomIndex).2) := by
  refine ⟨rfl, ?_, ?_, ?_, ?_⟩
  · intro i hi
    simp only [Polygon.interior]
    rw [if_neg]
    simp only [Polygon.numInteriors] at hi
    omega
  · simp only [Polygon.interior, Polygon.numInteriors]
    rw [if_neg]
    · have heq : (p.geomOffsets.startEnd p.geomIndex).1 + 1 +
          ((p.geomOffsets.startEnd p.geomIndex).2 -
            (p.geomOffsets.startEnd p.geomIndex).1 - 1) =
          (p.geomOffsets.startEnd p.geomIndex).2 := by omega
      rw [heq]
    · omega
  · intro i
    simp only [Polygon.interior, Polygon.numInteriors]
    split
    · simp
      omega
    · simp
      omega
  · simp only [Polygon.exterior]
    by_cases hc : (p.geomOffsets.startEnd p.geomIndex).1 =
        (p.geomOffsets.startEnd p.geomIndex).2
    · simp [hc]
    · simp [hc]

/-- C1 counterexample: `WKBMultiPolygon::new` on the empty (truncated)
buffer panics — the unwrap on the failed count read, modelled as `none` —
instead of reporting a recoverable parse error; the constructor returns
`Self` and has no error channel at all. -/
theorem wkbMultiPolygonNewPanicsOnEmptyBuffer :
    WKBMultiPolygon.new? [] Endianness.littleEndian = none := rfl

/-- C1 (amended): on any buffer too short to hold the 9-byte multipolygon
header, `WKBMultiPolygon::new` panics (modelled as `none`) under either
declared endianness, rather than returning a recoverable parse error. -/
theorem wkbMultiPolygonNewPanicsOnTruncation (buf : List Nat) (bo : Endianness)
    (h : buf.length < 9) : WKBMultiPolygon.new? buf bo = none := by
  have h8 : buf[5 + 3]? = none := List.getElem?_eq_none (by omega)
  unfold WKBMultiPolygon.new? readU32
  rw [h8]
  cases buf[5]? <;> cases buf[5 + 1]? <;> cases buf[5 + 2]? <;> rfl

theorem wkbMultiPolygonNewPanicsOnTruncation_witness :
    ([1, 6, 0, 0, 0] : List Nat).length < 9
    ∧ WKBMultiPolygon.new? [1, 6, 0, 0, 0] Endianness.littleEndian = none :=
  ⟨by decide, wkbMultiPolygonNewPanicsOnTruncation [1, 6, 0, 0, 0]
    Endianness.littleEndian (by decide)⟩

/-- C5 counterexample: construction from a well-formed buffer declaring
zero polygons succeeds, yet `polygon(0)` — an index that does not exceed
the declared count — panics (out-of-bounds index into the polygon vector,
modelled as `none`) instead of performing a panic-free bounds check. -/
theorem wkbMultiPolygonPolygonPanicsAtCount :
    WKBMultiPolygon.new? exWkbZeroMultiPolygon Endianness.littleEndian = some ⟨[]⟩
    ∧ WKBMultiPolygon.polygon? ⟨[]⟩ 0 = none := ⟨rfl, rfl⟩

/-- C5 (amended): `polygon(i)` returns none when `i > num_polygons()`, the
i-th sub-polygon when `i < num_polygons()`, and panics — the `i > count`
guard misses the one-past-the-end index — exactly when `i = num_polygons()`.
Stated as one equation: the panic case is `none`, the checked cases return
`some` of the optional view. -/
theorem wkbMultiPolygonPolygonTrichotomy (w : WKBMultiPolygon) (i : Nat) :
    w.polygon? i = if i = w.numPolygons then none else some w.wkbPolygons[i]? := by
  unfold WKBMultiPolygon.polygon? WKBMultiPolygon.numPolygons
  rcases Nat.lt_trichotomy i w.wkbPolygons.length with hlt | heq | hgt
  · rw [if_neg (by omega), if_neg (by omega), List.getElem?_eq_getElem hlt]
  · rw [if_neg (by omega), if_pos heq, List.getElem?_eq_none (by omega)]
  · rw [if_pos (by omega), if_neg (by omega), List.getElem?_eq_none (by omega)]

theorem wkbPolygonNew_offset (buf : List Nat) (bo : Endianness) (off : Nat)
    (p : WKBPolygon) (h : WKBPolygon.new? buf bo off = some p) : p.offset = off := by
  unfold WKBPolygon.new? at h
  split at h
  · exact absurd h (by simp)
  · split at h
    · exact absurd h (by simp)
    · have hmk := Option.some.inj h
      rw [← hmk]

theorem wkbPolygonsLoop_spec (buf : List Nat) (bo : Endianness) :
    ∀ (n off : Nat) (ps : List WKBPolygon),
      wkbPolygonsLoop buf bo n off = some ps →
      ps.length = n ∧
        ∀ i (hi : i < ps.length),
          (ps.get ⟨i, hi⟩).offset = off + ((ps.take i).map WKBPolygon.size).sum
          ∧ WKBPolygon.new? buf bo ((ps.get ⟨i, hi⟩).offset) = some (ps.get ⟨i, hi⟩) := by
  intro n
  induction n with
  | zero =>
    intro off ps h
    unfold wkbPolygonsLoop at h
    have hps : ps = [] := (Option.some.inj h).symm
    subst hps
    exact ⟨rfl, fun i hi => absurd hi (by simp)⟩
  | succ m ih =>
    intro off ps h
    unfold wkbPolygonsLoop at h
    split at h
    · exact absurd h (by simp)
    · next p hp =>
      rcases hmap : wkbPolygonsLoop buf bo m (off + p.size) with _ | rest
      · rw [hmap] at h
        exact absurd h (by simp)
      · rw [hmap] at h
        have hps : ps = p :: rest := by
          have hinj := Option.some.inj (by simpa using h)
          exact hinj.symm
        subst hps
        obtain ⟨hlen, hspec⟩ := ih (off + p.size) rest hmap
        refine ⟨by simp [hlen], ?_⟩
        intro i hi
        cases i with
        | zero =>
          have hoff : p.offset = off := wkbPolygonNew_offset buf bo off p hp
          refine ⟨by simpa using hoff, ?_⟩
          show WKBPolygon.new? buf bo p.offset = some p
          rw [hoff]
          exact hp
        | succ j =>
          have hj : j < rest.length := by simpa using hi
          obtain ⟨hjo, hjn⟩ := hspec j hj
          have hget : (p :: rest).get ⟨j + 1, hi⟩ = rest.get ⟨j, hj⟩ := rfl
          refine ⟨?_, by rw [hget]; exact hjn⟩
          rw [hget, hjo]
          simp [List.take_succ_cons]
          omega

/-- C6: when `WKBMultiPolygon::new` succeeds, the number of sub-polygon
views equals the 4-byte count read at byte offset 5 (after the 5-byte
header) in the declared endianness, and the i-th sub-polygon view was
constructed exactly once, at byte offset 9 plus the sum of the consumed
sizes of sub-polygons 0..i — each sibling offset obtained by accumulation,
with no rescanning of prior bytes. -/
theorem wkbMultiPolygonAccumulatedOffsets (buf : List Nat) (bo : Endianness)
    (w : WKBMultiPolygon) (h : WKBMultiPolygon.new? buf bo = some w) :
    (∃ n, readU32 buf 5 bo = some n ∧ w.numPolygons = n)
    ∧ ∀ i (hi : i < w.wkbPolygons.length),
        (w.wkbPolygons.get ⟨i, hi⟩).offset =
          9 + ((w.wkbPolygons.take i).map WKBPolygon.size).sum
        ∧ WKBPolygon.new? buf bo ((w.wkbPolygons.get ⟨i, hi⟩).offset) =
          some (w.wkbPolygons.get ⟨i, hi⟩) := by
  unfold WKBMultiPolygon.new? at h
  split at h
  · exact absurd h (by simp)
  · next n hr =>
    rcases hl : wkbPolygonsLoop buf bo n 9 with _ | ps
    · rw [hl] at h
      exact absurd h (by simp)
    · rw [hl] at h
      have hw : w = WKBMultiPolygon.mk ps := (Option.some.inj (by simpa using h)).symm
      subst hw
      obtain ⟨hlen, hspec⟩ := wkbPolygonsLoop_spec buf bo n 9 ps hl
      exact ⟨⟨n, hr, hlen⟩, hspec⟩

theorem wkbMultiPolygonAccumulatedOffsets_witness :
    WKBMultiPolygon.new? exWkbOneMultiPolygon Endianness.littleEndian =
      some (WKBMultiPolygon.mk [WKBPolygon.mk 9 29])
    ∧ ((∃ n, readU32 exWkbOneMultiPolygon 5 Endianness.littleEndian = some n ∧
          (WKBMultiPolygon.mk [WKBPolygon.mk 9 29]).numPolygons = n)
      ∧ ∀ i (hi : i < (WKBMultiPolygon.mk [WKBPolygon.mk 9 29]).wkbPolygons.length),
          ((WKBMultiPolygon.mk [WKBPolygon.mk 9 29]).wkbPolygons.get ⟨i, hi⟩).offset =
            9 + (((WKBMultiPolygon.mk [WKBPolygon.mk 9 29]).wkbPolygons.take i).map
              WKBPolygon.size).sum
          ∧ WKBPolygon.new? exWkbOneMultiPolygon Endianness.littleEndian
              (((WKBMultiPolygon.mk [WKBPolygon.mk 9 29]).wkbPolygons.get ⟨i, hi⟩).offset) =
            some ((WKBMultiPolygon.mk [WKBPolygon.mk 9 29]).wkbPolygons.get ⟨i, hi⟩)) :=
  ⟨by decide, wkbMultiPolygonAccumulatedOffsets exWkbOneMultiPolygon
    Endianness.littleEndian (WKBMultiPolygon.mk [WKBPolygon.mk 9 29]) (by decide)⟩

theorem polygonInteriorOnePastEnd_witness :
    ((exPolygon.geomOffsets.startEnd exPolygon.geomIndex).1 <
      (exPolygon.geomOffsets.startEnd exPolygon.geomIndex).2)
    ∧ (exPolygon.numInteriors = (exPolygon.geomOffsets.startEnd exPolygon.geomIndex).2 -
          (exPolygon.geomOffsets.startEnd exPolygon.geomIndex).1 - 1
      ∧ (∀ i, i ≤ exPolygon.numInteriors →
          exPolygon.interior i = some ⟨exPolygon.coords, exPolygon.ringOffsets,
            (exPolygon.geomOffsets.startEnd exPolygon.geomIndex).1 + 1 + i⟩)
      ∧ exPolygon.interior exPolygon.numInteriors = some ⟨exPolygon.coords,
          exPolygon.ringOffsets, (exPolygon.geomOffsets.startEnd exPolygon.geomIndex).2⟩
      ∧ (∀ i, exPolygon.interior i = none ↔ exPolygon.numInteriors < i)
      ∧ (exPolygon.exterior = none ↔
          (exPolygon.geomOffsets.startEnd exPolygon.geomIndex).1 =
            (exPolygon.geomOffsets.startEnd exPolygon.geomIndex).2)) :=
  ⟨by decide, polygonInteriorOnePastEnd exPolygon (by decide)⟩

theorem OffsetsBuffer.get_sliceUnchecked (o : OffsetsBuffer) {off len i : Nat}
    (hb : off + len < o.buffer.length) (hi : i ≤ len) :
    (o.sliceUnchecked off (len + 1)).get i = o.get (off + i) := by
  unfold OffsetsBuffer.sliceUnchecked Buffer.sliceUnchecked
  rw [OffsetsBuffer.get_def, OffsetsBuffer.get_def]
  simp only
  rw [if_pos (by omega), if_pos (by omega)]
  have he : o.buffer.offset + off + i = o.buffer.offset + (off + i) := by omega
  rw [he]

theorem Bitmap.getBit_slice (b : Bitmap) {off len i : Nat} (hi : i < len)
    (hb : off + i < b.buffer.length) :
    (b.slice off len).getBit i = b.getBit (off + i) := by
  unfold Bitmap.slice Bitmap.getBit Buffer.sliceUnchecked
  rw [Buffer.getElem?_values, Buffer.getElem?_values]
  simp only
  rw [if_pos hi, if_pos hb]
  have he : b.buffer.offset + off + i = b.buffer.offset + (off + i) := by omega
  rw [he]

theorem MultiPoint.points_congr [Inhabited α] (p q : MultiPoint α)
    (hc : p.coords = q.coords) (hs : p.startEnd = q.startEnd) :
    p.points = q.points := by
  unfold MultiPoint.points
  rw [hc, hs]

/-- C2: for a well-formed MultiPointArray and `offset + len ≤ A.len()`,
`slice` succeeds and the result has length `len`, the same nullity at slot
`i` as `A` at `offset + i`, and the same scalar value (materialized point
sequence); when `offset + len > A.len()` the slice panics. -/
theorem multiPointSliceSpec [Inhabited α] (A : MultiPointArray α) (offset len : Nat)
    (hWF : A.WF) :
    (offset + len ≤ A.len →
      ∃ S : MultiPointArray α,
        A.slice? offset len = some S
        ∧ S.len = len
        ∧ ∀ i, i < len →
            S.isNull i = A.isNull (offset + i)
            ∧ (S.value i).points = (A.value (offset + i)).points)
    ∧ (A.len < offset + len → A.slice? offset len = none) := by
  constructor
  · intro h
    have hb : offset + len < A.geomOffsets.buffer.length := by
      have h1 : 1 ≤ A.geomOffsets.buffer.length := hWF.1.2.1
      have h2 : A.len = A.geomOffsets.buffer.length - 1 := rfl
      omega
    refine ⟨MultiPointArray.mk A.coords (A.geomOffsets.sliceUnchecked offset (len + 1))
        (sliceValidityUnchecked A.validity offset len), ?_, rfl, ?_⟩
    · unfold MultiPointArray.slice?
      rw [if_pos h]
    intro i hi
    constructor
    · cases hv : A.validity with
      | none =>
        simp [MultiPointArray.isNull, sliceValidityUnchecked, hv]
      | some b =>
        have hblen := hWF.2.2.2 b (Option.mem_def.mpr hv)
        have hbl : b.len = b.buffer.length := rfl
        have hio : offset + i < b.buffer.length := by omega
        simp only [MultiPointArray.isNull, sliceValidityUnchecked, hv, Option.map_some']
        rw [Bitmap.getBit_slice b hi hio]
    · apply MultiPoint.points_congr
      · rfl
      · unfold MultiPoint.startEnd MultiPointArray.value OffsetsBuffer.startEnd
        unfold OffsetsBuffer.getNat
        simp only
        rw [OffsetsBuffer.get_sliceUnchecked A.geomOffsets hb (Nat.le_of_lt hi),
            OffsetsBuffer.get_sliceUnchecked A.geomOffsets hb hi]
        have he : offset + (i + 1) = offset + i + 1 := by omega
        rw [he]
  · intro h
    unfold MultiPointArray.slice?
    rw [if_neg (by omega)]

theorem exArray_WF : exArray.WF := by
  unfold exArray exCoords exOffsets exValidity
  decide

theorem multiPointSliceSpec_witness :
    exArray.WF
    ∧ ((1 + 1 ≤ exArray.len →
        ∃ S : MultiPointArray Int,
          exArray.slice? 1 1 = some S
          ∧ S.len = 1
          ∧ ∀ i, i < 1 →
              S.isNull i = exArray.isNull (1 + i)
              ∧ (S.value i).points = (exArray.value (1 + i)).points)
      ∧ (exArray.len < 1 + 1 → exArray.slice? 1 1 = none)) :=
  ⟨exArray_WF, multiPointSliceSpec exArray 1 1 exArray_WF⟩

theorem Buffer.isSliced_ofList (l : List α) : (Buffer.ofList l).isSliced = false := by
  simp [Buffer.isSliced, Buffer.ofList]

theorem ownedSliceOffsets_get (o : OffsetsBuffer) (offset len : Nat) {i : Nat}
    (hi : i ≤ len) :
    (ownedSliceOffsets o offset len).get i = o.get (offset + i) - o.get offset := by
  unfold ownedSliceOffsets
  rw [OffsetsBuffer.get_ofList, List.getElem?_map, List.getElem?_range (by omega)]
  rfl

theorem ownedSliceOffsets_length (o : OffsetsBuffer) (offset len : Nat) :
    (ownedSliceOffsets o offset len).buffer.length = len + 1 := by
  simp [ownedSliceOffsets, OffsetsBuffer.ofList, Buffer.ofList]

theorem CoordBuffer.len_ownedSlice (c : CoordBuffer α) (hc : c.WF) {s e : Nat}
    (hse : s ≤ e) (he : e ≤ c.len) :
    (c.ownedSlice s (e - s)).len = e - s := by
  cases c with
  | interleaved b =>
    have hc2 : b.WF ∧ b.length % 2 = 0 := hc
    have hvl : b.values.length = b.length := Buffer.length_values b hc2.1
    have hb2 : b.offset + b.length ≤ b.data.length := hc2.1
    have he2 : e ≤ b.length / 2 := he
    simp only [CoordBuffer.ownedSlice, CoordBuffer.len, Buffer.ofList, List.length_take,
      List.length_drop]
    omega
  | separated x y =>
    have hc2 : x.WF ∧ y.WF ∧ x.length = y.length := hc
    have hvl : x.values.length = x.length := Buffer.length_values x hc2.1
    have he2 : e ≤ x.length := he
    simp only [CoordBuffer.ownedSlice, CoordBuffer.len, Buffer.ofList, List.length_take,
      List.length_drop]
    omega

theorem CoordBuffer.get_ownedSlice [Inhabited α] (c : CoordBuffer α) {s e j : Nat}
    (hj : j < e - s) :
    (c.ownedSlice s (e - s)).get j = c.get (s + j) := by
  cases c with
  | interleaved b =>
    simp only [CoordBuffer.ownedSlice, CoordBuffer.get]
    rw [Buffer.values_ofList, List.getElem?_take, List.getElem?_take,
      if_pos (by omega : 2 * j < 2 * (e - s)),
      if_pos (by omega : 2 * j + 1 < 2 * (e - s)),
      List.getElem?_drop, List.getElem?_drop]
    have hx1 : 2 * s + 2 * j = 2 * (s + j) := by omega
    have hx2 : 2 * s + (2 * j + 1) = 2 * (s + j) + 1 := by omega
    rw [hx1, hx2]
  | separated x y =>
    simp only [CoordBuffer.ownedSlice, CoordBuffer.get]
    rw [Buffer.values_ofList, Buffer.values_ofList, List.getElem?_take, List.getElem?_take,
      if_pos (by omega : j < e - s), if_pos (by omega : j < e - s),
      List.getElem?_drop, List.getElem?_drop]

theorem getBit_ownedSliceValidity (b : Bitmap) {off len i : Nat} (hi : i < len) :
    (Bitmap.ofList ((b.buffer.values.drop off).take len)).getBit i = b.getBit (off + i) := by
  unfold Bitmap.getBit Bitmap.ofList
  rw [Buffer.values_ofList, List.getElem?_take, if_pos hi, List.getElem?_drop]

theorem MultiPointArray.new?_eq_some (c : CoordBuffer α) (g : OffsetsBuffer)
    (v : Option Bitmap) (h1 : ∀ b ∈ v, b.len = g.lenProxy) (h2 : g.last.toNat = c.len) :
    MultiPointArray.new? c g v = some ⟨c, g, v⟩ := by
  unfold MultiPointArray.new? check
  have hc1 : ((v.map Bitmap.len).map fun l => l != g.lenProxy).getD false = false := by
    cases hv : v with
    | none => rfl
    | some b => simp [h1 b (Option.mem_def.mpr hv)]
  have hc2 : (g.last.toNat != c.len) = false := by simp [h2]
  rw [hc1, hc2]
  rfl

/-- C3 (amended): for a well-formed array, `1 ≤ len` and
`offset + len ≤ A.len()`, `owned_slice` returns an array logically
identical to the zero-copy slice — same length, same per-slot nullity and
scalar values — whose coordinate, offset and validity storage is freshly
built and unsliced (no residual offset into a larger shared allocation);
with `len = 0` the call panics on the `length >= 1` assertion. -/
theorem multiPointOwnedSliceSpec [Inhabited α] (A : MultiPointArray α)
    (offset len : Nat) (hWF : A.WF) :
    (offset + len ≤ A.len ∧ 1 ≤ len →
      ∃ S : MultiPointArray α,
        A.ownedSlice? offset len = some S
        ∧ S.len = len
        ∧ (∀ i, i < len →
            S.isNull i = A.isNull (offset + i)
            ∧ (S.value i).points = (A.value (offset + i)).points)
        ∧ S.geomOffsets.buffer.isSliced = false
        ∧ S.coords.isSliced = false
        ∧ (∀ b ∈ S.validity, b.buffer.isSliced = false))
    ∧ (len = 0 → A.ownedSlice? offset len = none) := by
  constructor
  case right =>
    intro h0
    unfold MultiPointArray.ownedSlice?
    rw [if_neg (by omega)]
  rintro ⟨h1, h2⟩
  have hoWF : A.geomOffsets.WF := hWF.1
  have hb1 : 1 ≤ A.geomOffsets.buffer.length := hoWF.2.1
  have hALen : A.len = A.geomOffsets.buffer.length - 1 := rfl
  have hlastEq : A.geomOffsets.getNat A.len = A.coords.len := hWF.2.2.1
  have hmono : ∀ {a b : Nat}, a ≤ b → b ≤ A.len →
      A.geomOffsets.getNat a ≤ A.geomOffsets.getNat b := by
    intro a b hab hbl
    exact A.geomOffsets.getNat_mono hoWF hab (by omega)
  have hidx : offset + len - 1 + 1 = offset + len := by omega
  have hsc : (A.geomOffsets.startEnd offset).1 = A.geomOffsets.getNat offset := rfl
  have hec : (A.geomOffsets.startEnd (offset + len - 1)).2 =
      A.geomOffsets.getNat (offset + len) := by
    unfold OffsetsBuffer.startEnd
    simp only
    rw [hidx]
  have hse : A.geomOffsets.getNat offset ≤ A.geomOffsets.getNat (offset + len) :=
    hmono (by omega) (by omega)
  have he : A.geomOffsets.getNat (offset + len) ≤ A.coords.len := by
    rw [← hlastEq]
    exact hmono h1 (le_refl _)
  have hlp : (ownedSliceOffsets A.geomOffsets offset len).lenProxy = len := by
    unfold OffsetsBuffer.lenProxy
    rw [ownedSliceOffsets_length]
    omega
  have hvlen : ∀ b, A.validity = some b →
      Bitmap.len (Bitmap.ofList ((b.buffer.values.drop offset).take len)) = len := by
    intro b hv
    obtain ⟨hbl, hbWF⟩ := hWF.2.2.2 b (Option.mem_def.mpr hv)
    have hv2 : b.buffer.values.length = b.buffer.length := Buffer.length_values _ hbWF
    have hbl2 : b.buffer.length = A.len := hbl
    simp only [Bitmap.len, Bitmap.ofList, Buffer.ofList, List.length_take, List.length_drop]
    omega
  have hg0 : 0 ≤ A.geomOffsets.get offset := A.geomOffsets.get_nonneg hoWF offset
  have hgmono : A.geomOffsets.get offset ≤ A.geomOffsets.get (offset + len) :=
    A.geomOffsets.get_mono hoWF (by omega) (by omega)
  have hlastN : (ownedSliceOffsets A.geomOffsets offset len).last.toNat =
      A.geomOffsets.getNat (offset + len) - A.geomOffsets.getNat offset := by
    unfold OffsetsBuffer.last
    rw [ownedSliceOffsets_length]
    have hred : len + 1 - 1 = len := rfl
    rw [hred, ownedSliceOffsets_get A.geomOffsets offset len (le_refl len)]
    unfold OffsetsBuffer.getNat
    omega
  have hclen : (A.coords.ownedSlice (A.geomOffsets.getNat offset)
      (A.geomOffsets.getNat (offset + len) - A.geomOffsets.getNat offset)).len =
      A.geomOffsets.getNat (offset + len) - A.geomOffsets.getNat offset :=
    CoordBuffer.len_ownedSlice A.coords hWF.2.1 hse he
  have hv1 : ∀ b' ∈ ownedSliceValidity A.validity offset len,
      b'.len = (ownedSliceOffsets A.geomOffsets offset len).lenProxy := by
    intro b' hb'
    rw [hlp]
    cases hv : A.validity with
    | none =>
      rw [hv] at hb'
      simp [ownedSliceValidity] at hb'
    | some b =>
      rw [hv] at hb'
      have hmem := Option.mem_def.mp hb'
      simp only [ownedSliceValidity, Option.map_some'] at hmem
      have hbe : b' = Bitmap.ofList ((b.buffer.values.drop offset).take len) :=
        (Option.some.inj hmem).symm
      rw [hbe]
      exact hvlen b hv
  have hnew : MultiPointArray.new?
      (A.coords.ownedSlice (A.geomOffsets.getNat offset)
        (A.geomOffsets.getNat (offset + len) - A.geomOffsets.getNat offset))
      (ownedSliceOffsets A.geomOffsets offset len)
      (ownedSliceValidity A.validity offset len) =
      some ⟨A.coords.ownedSlice (A.geomOffsets.getNat offset)
        (A.geomOffsets.getNat (offset + len) - A.geomOffsets.getNat offset),
        ownedSliceOffsets A.geomOffsets offset len,
        ownedSliceValidity A.validity offset len⟩ :=
    MultiPointArray.new?_eq_some _ _ _ hv1 (by rw [hlastN, hclen])
  refine ⟨⟨A.coords.ownedSlice (A.geomOffsets.getNat offset)
      (A.geomOffsets.getNat (offset + len) - A.geomOffsets.getNat offset),
      ownedSliceOffsets A.geomOffsets offset len,
      ownedSliceValidity A.validity offset len⟩, ?_, hlp, ?_, ?_, ?_, ?_⟩
  · unfold MultiPointArray.ownedSlice?
    rw [if_pos ⟨h1, h2⟩]
    simp only
    rw [hsc, hec]
    exact hnew
  · intro i hi
    constructor
    · cases hv : A.validity with
      | none =>
        simp [MultiPointArray.isNull, ownedSliceValidity, hv]
      | some b =>
        simp only [MultiPointArray.isNull, ownedSliceValidity, hv, Option.map_some']
        rw [getBit_ownedSliceValidity b hi]
    · have ha1 : A.geomOffsets.getNat (offset + i) ≤ A.geomOffsets.getNat (offset + i + 1) :=
        hmono (by omega) (by omega)
      have has : A.geomOffsets.getNat offset ≤ A.geomOffsets.getNat (offset + i) :=
        hmono (by omega) (by omega)
      have hae : A.geomOffsets.getNat (offset + i + 1) ≤ A.geomOffsets.getNat (offset + len) :=
        hmono (by omega) (by omega)
      have hgs : (ownedSliceOffsets A.geomOffsets offset len).getNat i =
          A.geomOffsets.getNat (offset + i) - A.geomOffsets.getNat offset := by
        unfold OffsetsBuffer.getNat
        rw [ownedSliceOffsets_get A.geomOffsets offset len (by omega)]
        have hni : 0 ≤ A.geomOffsets.get (offset + i) :=
          A.geomOffsets.get_nonneg hoWF (offset + i)
        omega
      have hge : (ownedSliceOffsets A.geomOffsets offset len).getNat (i + 1) =
          A.geomOffsets.getNat (offset + i + 1) - A.geomOffsets.getNat offset := by
        unfold OffsetsBuffer.getNat
        rw [ownedSliceOffsets_get A.geomOffsets offset len (by omega)]
        have hni : 0 ≤ A.geomOffsets.get (offset + (i + 1)) :=
          A.geomOffsets.get_nonneg hoWF (offset + (i + 1))
        have hadd : offset + (i + 1) = offset + i + 1 := by omega
        rw [hadd]
        omega
      unfold MultiPoint.points MultiPoint.startEnd MultiPointArray.value
      simp only [OffsetsBuffer.startEnd]
      rw [hgs, hge]
      have hlen2 : A.geomOffsets.getNat (offset + i + 1) - A.geomOffsets.getNat offset -
          (A.geomOffsets.getNat (offset + i) - A.geomOffsets.getNat offset) =
          A.geomOffsets.getNat (offset + i + 1) - A.geomOffsets.getNat (offset + i) := by
        omega
      rw [hlen2]
      apply List.map_congr_left
      intro k hk
      have hk2 : k < A.geomOffsets.getNat (offset + i + 1) -
          A.geomOffsets.getNat (offset + i) := List.mem_range.mp hk
      have hj : A.geomOffsets.getNat (offset + i) - A.geomOffsets.getNat offset + k <
          A.geomOffsets.getNat (offset + len) - A.geomOffsets.getNat offset := by omega
      rw [CoordBuffer.get_ownedSlice A.coords hj]
      have hix : A.geomOffsets.getNat offset +
          (A.geomOffsets.getNat (offset + i) - A.geomOffsets.getNat offset + k) =
          A.geomOffsets.getNat (offset + i) + k := by omega
      rw [hix]
  · exact Buffer.isSliced_ofList _
  · cases hc : A.coords with
    | interleaved b =>
      simp [CoordBuffer.ownedSlice, CoordBuffer.isSliced, Buffer.isSliced_ofList]
    | separated x y =>
      simp [CoordBuffer.ownedSlice, CoordBuffer.isSliced, Buffer.isSliced_ofList]
  · intro b' hb'
    cases hv : A.validity with
    | none =>
      rw [hv] at hb'
      simp [ownedSliceValidity] at hb'
    | some b =>
      rw [hv] at hb'
      have hmem := Option.mem_def.mp hb'
      simp only [ownedSliceValidity, Option.map_some'] at hmem
      have hbe : b' = Bitmap.ofList ((b.buffer.values.drop offset).take len) :=
        (Option.some.inj hmem).symm
      rw [hbe]
      exact Buffer.isSliced_ofList _

/-- C3 counterexample: `owned_slice(0, 0)` is within the claimed bounds
(`offset + len ≤ A.len()`) yet panics on the `length >= 1` assertion
(modelled as `none`), while the zero-copy `slice(0, 0)` succeeds. -/
theorem multiPointOwnedSlicePanicsAtZeroLength :
    0 + 0 ≤ exArray.len ∧ exArray.ownedSlice? 0 0 = none
    ∧ (exArray.slice? 0 0).isSome = true :=
  ⟨by decide, by decide, by decide⟩

theorem multiPointOwnedSliceSpec_witness :
    exArray.WF
    ∧ ((1 + 1 ≤ exArray.len ∧ 1 ≤ 1 →
        ∃ S : MultiPointArray Int,
          exArray.ownedSlice? 1 1 = some S
          ∧ S.len = 1
          ∧ (∀ i, i < 1 →
              S.isNull i = exArray.isNull (1 + i)
              ∧ (S.value i).points = (exArray.value (1 + i)).points)
          ∧ S.geomOffsets.buffer.isSliced = false
          ∧ S.coords.isSliced = false
          ∧ (∀ b ∈ S.validity, b.buffer.isSliced = false))
      ∧ (1 = 0 → exArray.ownedSlice? 1 1 = none)) :=
  ⟨exArray_WF, multiPointOwnedSliceSpec exArray 1 1 exArray_WF⟩

theorem OffsetsBuffer.last_ofList (o : OffsetsBuffer) (h : o.buffer.WF) :
    (OffsetsBuffer.ofList o.values).last = o.last := by
  unfold OffsetsBuffer.last OffsetsBuffer.get
  rw [OffsetsBuffer.valuesOfList]
  have hvl : o.values.length = o.buffer.length := Buffer.length_values _ h
  simp only [OffsetsBuffer.ofList, Buffer.ofList]
  rw [hvl]

theorem OffsetsBuffer.lenProxy_ofList (o : OffsetsBuffer) (h : o.buffer.WF) :
    (OffsetsBuffer.ofList o.values).lenProxy = o.lenProxy := by
  unfold OffsetsBuffer.lenProxy
  simp only [OffsetsBuffer.ofList, Buffer.ofList]
  have hvl : o.values.length = o.buffer.length := Buffer.length_values o.buffer h
  rw [hvl]

/-- C7: widening a narrow-offset array's index width and narrowing it back
yields an array value-equal to the original — identical coordinate buffer,
identical validity, identical offset values — whenever every offset fits
the narrow range (which widening preserves); narrowing offsets that exceed
the i32 range fails with the overflow error; neither conversion alters
coordinate values. -/
theorem multiPointWidenNarrowRoundTrip (A : MultiPointArray α) (hWF : A.WF) :
    (A.geomOffsets.fitsI32 →
      ∃ B C : MultiPointArray α,
        multiPointWiden? A = some B
        ∧ B.coords = A.coords ∧ B.validity = A.validity
        ∧ B.geomOffsets.values = A.geomOffsets.values
        ∧ multiPointTryNarrow? B = some (Except.ok C)
        ∧ C.coords = A.coords ∧ C.validity = A.validity
        ∧ C.geomOffsets.values = A.geomOffsets.values)
    ∧ (¬ A.geomOffsets.fitsI32 →
        multiPointTryNarrow? A = some (Except.error GeoArrowError.overflow)) := by
  have hbWF : A.geomOffsets.buffer.WF := hWF.1.1
  have h1 : ∀ b ∈ A.validity, b.len = (OffsetsBuffer.ofList A.geomOffsets.values).lenProxy := by
    intro b hb
    rw [OffsetsBuffer.lenProxy_ofList A.geomOffsets hbWF]
    exact (hWF.2.2.2 b hb).1
  have h2 : (OffsetsBuffer.ofList A.geomOffsets.values).last.toNat = A.coords.len := by
    rw [OffsetsBuffer.last_ofList A.geomOffsets hbWF]
    exact hWF.2.2.1
  constructor
  · intro hfits
    refine ⟨⟨A.coords, OffsetsBuffer.ofList A.geomOffsets.values, A.validity⟩,
        ⟨A.coords, OffsetsBuffer.ofList A.geomOffsets.values, A.validity⟩,
        ?_, rfl, rfl, OffsetsBuffer.valuesOfList _, ?_, rfl, rfl,
        OffsetsBuffer.valuesOfList _⟩
    · unfold multiPointWiden? OffsetsBuffer.widen
      exact MultiPointArray.new?_eq_some A.coords _ A.validity h1 h2
    · have htn : (OffsetsBuffer.ofList A.geomOffsets.values).tryNarrow =
          Except.ok (OffsetsBuffer.ofList A.geomOffsets.values) := by
        unfold OffsetsBuffer.tryNarrow
        rw [if_pos, OffsetsBuffer.valuesOfList]
        rw [OffsetsBuffer.valuesOfList]
        rw [List.all_eq_true]
        intro v hv
        simpa using hfits v hv
      unfold multiPointTryNarrow?
      rw [htn]
      simp only
      rw [Option.map_eq_some']
      refine ⟨⟨A.coords, OffsetsBuffer.ofList A.geomOffsets.values, A.validity⟩, ?_, rfl⟩
      exact MultiPointArray.new?_eq_some A.coords _ A.validity h1 h2
  · intro hnf
    have htn : A.geomOffsets.tryNarrow = Except.error GeoArrowError.overflow := by
      unfold OffsetsBuffer.tryNarrow
      rw [if_neg]
      intro hall
      apply hnf
      intro v hv
      have hx := List.all_eq_true.mp hall v hv
      simpa using hx
    unfold multiPointTryNarrow?
    rw [htn]

theorem multiPointWidenNarrowRoundTrip_witness :
    exArray.WF
    ∧ ((exArray.geomOffsets.fitsI32 →
        ∃ B C : MultiPointArray Int,
          multiPointWiden? exArray = some B
          ∧ B.coords = exArray.coords ∧ B.validity = exArray.validity
          ∧ B.geomOffsets.values = exArray.geomOffsets.values
          ∧ multiPointTryNarrow? B = some (Except.ok C)
          ∧ C.coords = exArray.coords ∧ C.validity = exArray.validity
          ∧ C.geomOffsets.values = exArray.geomOffsets.values)
      ∧ (¬ exArray.geomOffsets.fitsI32 →
          multiPointTryNarrow? exArray = some (Except.error GeoArrowError.overflow))) :=
  ⟨exArray_WF, multiPointWidenNarrowRoundTrip exArray exArray_WF⟩

theorem iterGeo_length [Inhabited α] (A : MultiPointArray α) : A.iterGeo.length = A.len := by
  unfold MultiPointArray.iterGeo
  simp

theorem arrayFromOptionGeoms_len (geoms : List (Option (List (α × α)))) :
    (arrayFromOptionGeoms geoms).len = geoms.length := by
  unfold arrayFromOptionGeoms MultiPointArray.len OffsetsBuffer.lenProxy offsetsFromLengths
  unfold OffsetsBuffer.ofList Buffer.ofList
  simp

theorem arrayFromOptionGeoms_isNull (geoms : List (Option (List (α × α)))) {i : Nat}
    (hi : i < geoms.length) :
    (arrayFromOptionGeoms geoms).isNull i = ((geoms[i]?).getD none).isNone := by
  unfold arrayFromOptionGeoms MultiPointArray.isNull Bitmap.getBit Bitmap.ofList
  simp only
  rw [Buffer.values_ofList, List.getElem?_map, List.getElem?_eq_getElem hi]
  cases hgi : geoms[i] <;> simp [hgi]

theorem iterGeo_getElem [Inhabited α] (A : MultiPointArray α) {i : Nat} (hi : i < A.len) :
    A.iterGeo[i]? = some (if A.isNull i then none else some ((A.value i).points)) := by
  unfold MultiPointArray.iterGeo
  rw [List.getElem?_map, List.getElem?_range hi]
  rfl

/-- C8: the algorithm layer preserves logical length and validity pattern:
chaikin smoothing (for an arbitrary per-geometry transformation `f`
standing for the external geo-crate smoothing) yields an array of the same
length that is null at slot i exactly when A is, and is_empty yields one
optional bool per slot, null exactly at A's null slots. -/
theorem algorithmsPreserveLengthAndValidity [Inhabited α] (A : MultiPointArray α)
    (f : List (α × α) → List (α × α)) :
    ((chaikinSmoothing f A).len = A.len
      ∧ ∀ i, i < A.len → (chaikinSmoothing f A).isNull i = A.isNull i)
    ∧ ((isEmptyArray A).length = A.len
      ∧ ∀ i, i < A.len → ((isEmptyArray A)[i]? = some none ↔ A.isNull i = true)) := by
  have hgl : A.iterGeo.length = A.len := iterGeo_length A
  refine ⟨⟨?_, ?_⟩, ?_, ?_⟩
  · unfold chaikinSmoothing
    rw [arrayFromOptionGeoms_len]
    simp [hgl]
  · intro i hi
    unfold chaikinSmoothing
    have hilen : i < (A.iterGeo.map (Option.map f)).length := by simp [hgl, hi]
    rw [arrayFromOptionGeoms_isNull _ hilen, List.getElem?_map, iterGeo_getElem A hi]
    cases hn : A.isNull i <;> simp [hn]
  · unfold isEmptyArray
    simp [hgl]
  · intro i hi
    unfold isEmptyArray
    rw [List.getElem?_map, iterGeo_getElem A hi]
    cases hn : A.isNull i <;> simp [hn]

theorem length_filterMap_guard {β : Type} (l : List Nat) (p : Nat → Bool) (f : Nat → β) :
    (l.filterMap fun i => if p i then none else some (f i)).length =
    (l.filter fun i => !p i).length := by
  induction l with
  | nil => rfl
  | cons a t ih =>
    cases hp : p a <;> simp [List.filterMap_cons, List.filter_cons, hp, ih]

/-- C9: the spatial index is bulk-loaded from exactly the array's non-null
scalar views in index order, each wrapped in a cached-envelope object; null
slots contribute nothing, so the tree's element count equals the number of
non-null slots. -/
theorem rstarTreeBulkLoadsNonNull (A : MultiPointArray α) :
    A.rstarTree.elems = ((List.range A.len).filterMap fun i =>
        if A.isNull i then none else some (CachedEnvelope.new (A.value i)))
    ∧ A.rstarTree.size = ((List.range A.len).filter fun i => !A.isNull i).length := by
  have helems : A.rstarTree.elems = ((List.range A.len).filterMap fun i =>
      if A.isNull i then none else some (CachedEnvelope.new (A.value i))) := by
    unfold MultiPointArray.rstarTree RTree.bulkLoad MultiPointArray.iter
    simp only [List.filterMap_map, List.map_filterMap]
    apply List.filterMap_congr
    intro i _
    unfold MultiPointArray.get
    cases hn : A.isNull i <;> simp [hn]
  refine ⟨helems, ?_⟩
  unfold RTree.size
  rw [helems]
  exact length_filterMap_guard (List.range A.len) (fun i => A.isNull i)
    (fun i => CachedEnvelope.new (A.value i))

theorem newAndTryNewRunSameValidation_witness :
    (MultiPointArray.new? exCoords exOffsets (some exValidity) =
      (MultiPointArray.tryNew exCoords exOffsets (some exValidity)).toOption)
    ∧ (MultiPointArray.tryNew exCoords exOffsets (some exValidity) =
        Except.ok ⟨exCoords, exOffsets, some exValidity⟩ ↔
        (∀ b ∈ some exValidity, b.len = exOffsets.lenProxy) ∧
          exOffsets.last.toNat = exCoords.len)
    ∧ (¬ ((∀ b ∈ some exValidity, b.len = exOffsets.lenProxy) ∧
          exOffsets.last.toNat = exCoords.len) ↔
        ∃ msg, MultiPointArray.tryNew exCoords exOffsets (some exValidity) =
          Except.error (GeoArrowError.general msg)) :=
  newAndTryNewRunSameValidation exCoords exOffsets (some exValidity)

theorem wkbMultiPolygonPolygonTrichotomy_witness :
    WKBMultiPolygon.polygon? (WKBMultiPolygon.mk [WKBPolygon.mk 9 29]) 0 =
      if 0 = (WKBMultiPolygon.mk [WKBPolygon.mk 9 29]).numPolygons then none
      else some (WKBMultiPolygon.mk [WKBPolygon.mk 9 29]).wkbPolygons[0]? :=
  wkbMultiPolygonPolygonTrichotomy (WKBMultiPolygon.mk [WKBPolygon.mk 9 29]) 0

theorem algorithmsPreserveLengthAndValidity_witness :
    ((chaikinSmoothing id exArray).len = exArray.len
      ∧ ∀ i, i < exArray.len → (chaikinSmoothing id exArray).isNull i = exArray.isNull i)
    ∧ ((isEmptyArray exArray).length = exArray.len
      ∧ ∀ i, i < exArray.len →
          ((isEmptyArray exArray)[i]? = some none ↔ exArray.isNull i = true)) :=
  algorithmsPreserveLengthAndValidity exArray id

theorem rstarTreeBulkLoadsNonNull_witness :
    exArray.rstarTree.elems = ((List.range exArray.len).filterMap fun i =>
        if exArray.isNull i then none else some (CachedEnvelope.new (exArray.value i)))
    ∧ exArray.rstarTree.size =
        ((List.range exArray.len).filter fun i => !exArray.isNull i).length :=
  rstarTreeBulkLoadsNonNull exArray
